import Mathlib

/-!
# Verification of the clean-rs cleanup engine

Shallow embedding of the cleanup engine of the `clean-rs` repository:
the recursive size aggregation (`CleanupItem::scan_directory`,
`get_dir_size`), temp-file pattern scanning (`scan_temp_files`),
best-effort deletion (`clean_directory`, `clean_temp_files`, and the
standalone `cleaner::clean_directory`), the TUI session state machine
(`App`, `run_app` key dispatch) and the input debouncer
(`App::should_process_key`).

The filesystem is modelled as a finite tree of named entries.  A path
argument is modelled as `Option FsEntry`: `none` is a path that does not
exist on disk, `some e` is a path resolving to the node `e`.  Deletion
outcomes are modelled by an oracle `ok : String → Bool` giving, per entry
name, whether the `fs::remove_file` / `fs::remove_dir_all` call on that
entry succeeds; the Rust code discards these results (`let _ = ...`).
-/

namespace CleanRs

/-- Result of scanning/cleaning a cleanup item (struct `CleanupResult`
in `cleanup_items.rs`): file count, directory count, total bytes, entry
count (unused by the filesystem paths) and the `has_data` flag. -/
structure CleanupResult where
  files : Nat
  directories : Nat
  size_bytes : Nat
  entries : Nat
  has_data : Bool
deriving Repr, DecidableEq

/-- Model of `CleanupResult::new()`: the all-zero result. -/
def CleanupResult.new : CleanupResult :=
  { files := 0, directories := 0, size_bytes := 0, entries := 0, has_data := false }

/-- Model of `CleanupResult::total_items()`: `files + directories + entries`. -/
def CleanupResult.total_items (r : CleanupResult) : Nat :=
  r.files + r.directories + r.entries

/-- Accumulation of one partial result into another, as performed by the
`result.files += item_result.files; ...; result.has_data = result.has_data
|| item_result.has_data` blocks of `scan`/`clean` in `cleanup_items.rs`. -/
def addResult (a b : CleanupResult) : CleanupResult :=
  { files := a.files + b.files
    directories := a.directories + b.directories
    size_bytes := a.size_bytes + b.size_bytes
    entries := a.entries + b.entries
    has_data := a.has_data || b.has_data }

/-- A filesystem node: a regular file with a name and a size in bytes, or
a directory with a name and a list of direct children. -/
inductive FsEntry where
  | file (name : String) (size : Nat)
  | dir (name : String) (children : List FsEntry)

/-- The name of a filesystem node (the final path component, what
`entry.file_name()` yields for a directory entry). -/
def FsEntry.name : FsEntry → String
  | .file n _ => n
  | .dir n _ => n

mutual

/-- Contribution of a single directory entry to the accumulator of the
`for entry in entries` loop of `CleanupItem::scan_directory`
(`cleanup_items.rs:109-125`): a regular file adds one file and its
metadata length and sets `has_data`; a subdirectory is scanned
recursively and adds its files and bytes, `1 +` its directory count, and
ors in its `has_data`. -/
def scanDirEntry : FsEntry → CleanupResult
  | .file _ size =>
      { files := 1, directories := 0, size_bytes := size, entries := 0, has_data := true }
  | .dir _ children =>
      let sub := scanDirList children
      { files := sub.files, directories := 1 + sub.directories,
        size_bytes := sub.size_bytes, entries := 0, has_data := sub.has_data }

/-- The `for entry in entries` loop of `CleanupItem::scan_directory`,
folding the per-entry contributions into the accumulator that starts at
`CleanupResult::new()`. -/
def scanDirList : List FsEntry → CleanupResult
  | [] => CleanupResult.new
  | e :: rest => addResult (scanDirEntry e) (scanDirList rest)

end

/-- Model of `CleanupItem::scan_directory(path)` (`cleanup_items.rs:101-131`): a
missing path returns the zero result; on a regular file `fs::read_dir`
fails, so the `if let Ok(entries)` guard leaves the zero result; a
directory is scanned entry by entry. -/
def scan_directory : Option FsEntry → CleanupResult
  | none => CleanupResult.new
  | some (.file _ _) => CleanupResult.new
  | some (.dir _ children) => scanDirList children

/-! ## Specification-side aggregation

Independent, structurally recursive definitions of "sum of sizes of all
regular files reachable", "number of regular files reachable" and
"number of directory nodes reachable" from a node, written directly from
the wording of the spec, to be compared with the code translation above. -/

mutual

/-- Sum of the sizes of all regular files reachable from a node (the node
itself included when it is a file). -/
def reachBytes : FsEntry → Nat
  | .file _ size => size
  | .dir _ children => reachBytesList children

/-- Sum of `reachBytes` over a list of nodes. -/
def reachBytesList : List FsEntry → Nat
  | [] => 0
  | e :: rest => reachBytes e + reachBytesList rest

end

mutual

/-- Number of regular files reachable from a node. -/
def reachFiles : FsEntry → Nat
  | .file _ _ => 1
  | .dir _ children => reachFilesList children

/-- Sum of `reachFiles` over a list of nodes. -/
def reachFilesList : List FsEntry → Nat
  | [] => 0
  | e :: rest => reachFiles e + reachFilesList rest

end

mutual

/-- Number of directory nodes reachable from a node, the node itself
included when it is a directory. -/
def reachDirs : FsEntry → Nat
  | .file _ _ => 0
  | .dir _ children => 1 + reachDirsList children

/-- Sum of `reachDirs` over a list of nodes. -/
def reachDirsList : List FsEntry → Nat
  | [] => 0
  | e :: rest => reachDirs e + reachDirsList rest

end

/-! ## Temp-file pattern matching -/

/-- Substring test on character lists, the semantics of Rust
`str::contains(pattern)`: some tail of the haystack starts with the
needle. -/
def charsContain (hay needle : List Char) : Bool :=
  match hay with
  | [] => needle.isEmpty
  | _ :: t => needle.isPrefixOf hay || charsContain t needle

/-- Rust `str::contains` on the embedded strings. -/
def strContains (s pat : String) : Bool :=
  charsContain s.toList pat.toList

/-- Rust `str::starts_with` on the embedded strings. -/
def strStarts (s pat : String) : Bool :=
  pat.toList.isPrefixOf s.toList

/-- Rust `str::ends_with` on the embedded strings. -/
def strEnds (s pat : String) : Bool :=
  pat.toList.reverse.isPrefixOf s.toList.reverse

/-- The `is_temp` test of `CleanupItem::scan_temp_files` /
`clean_temp_files` (`cleanup_items.rs:185-190`): the entry name contains
`".tmp"` or `".temp"`, starts or ends with `"~"`, or contains `"temp"`
or `"cache"`. -/
def is_temp (name : String) : Bool :=
  strContains name ".tmp" || strContains name ".temp" ||
  strStarts name "~" || strEnds name "~" ||
  strContains name "temp" || strContains name "cache"

mutual

/-- Contribution of one directory entry to the accumulator of the
`for entry in entries` loop of `CleanupItem::scan_temp_files`
(`cleanup_items.rs:178-207`): a regular file is counted only when its
name passes `is_temp`; a subdirectory is always recursed into, its
counts added unchanged (`directories` is not incremented). -/
def scanTempEntry : FsEntry → CleanupResult
  | .file n size =>
      if is_temp n then
        { files := 1, directories := 0, size_bytes := size, entries := 0, has_data := true }
      else
        CleanupResult.new
  | .dir _ children =>
      let sub := scanTempList children
      { files := sub.files, directories := sub.directories,
        size_bytes := sub.size_bytes, entries := 0, has_data := sub.has_data }

/-- The entry loop of `CleanupItem::scan_temp_files`. -/
def scanTempList : List FsEntry → CleanupResult
  | [] => CleanupResult.new
  | e :: rest => addResult (scanTempEntry e) (scanTempList rest)

end

/-- Model of `CleanupItem::scan_temp_files(path)` (`cleanup_items.rs:170-213`):
zero result for a missing path or a path on which `fs::read_dir` fails
(a regular file); otherwise the entry loop over the children. -/
def scan_temp_files : Option FsEntry → CleanupResult
  | none => CleanupResult.new
  | some (.file _ _) => CleanupResult.new
  | some (.dir _ children) => scanTempList children

mutual

/-- Specification-side count of reachable regular files whose name
passes `is_temp`. -/
def reachTempFiles : FsEntry → Nat
  | .file n _ => if is_temp n then 1 else 0
  | .dir _ children => reachTempFilesList children

/-- Sum of `reachTempFiles` over a list of nodes. -/
def reachTempFilesList : List FsEntry → Nat
  | [] => 0
  | e :: rest => reachTempFiles e + reachTempFilesList rest

end

mutual

/-- Specification-side sum of sizes of reachable regular files whose
name passes `is_temp`. -/
def reachTempBytes : FsEntry → Nat
  | .file n size => if is_temp n then size else 0
  | .dir _ children => reachTempBytesList children

/-- Sum of `reachTempBytes` over a list of nodes. -/
def reachTempBytesList : List FsEntry → Nat
  | [] => 0
  | e :: rest => reachTempBytes e + reachTempBytesList rest

end

/-! ## Best-effort deletion

The deletion loops of `clean_directory` and `clean_temp_files` in
`cleanup_items.rs` attempt `fs::remove_file` / `fs::remove_dir_all` on
each direct entry and discard the outcome (`let _ = ...`).  The outcome
of each attempt is given by an oracle `ok : String → Bool` on the entry
name: `true` means the call succeeds and the entry (for a directory, its
whole subtree) is removed, `false` means the call fails and the entry is
left in place. -/

/-- The deletion loop of `CleanupItem::clean_directory`
(`cleanup_items.rs:153-165`): every direct entry gets its own deletion
attempt; a successful attempt removes the entry, a failed one leaves it
and the loop continues with the remaining entries. -/
def cleanDirList (ok : String → Bool) : List FsEntry → List FsEntry
  | [] => []
  | e :: rest =>
      if ok e.name then cleanDirList ok rest
      else e :: cleanDirList ok rest

/-- Model of `CleanupItem::clean_directory(path, dry_run)`
(`cleanup_items.rs:133-168`): a missing path returns the zero result; an
existing path is first re-scanned with `scan_directory` and the scan
fields are copied into the result; on a dry run the function returns
before deleting; otherwise the deletion loop runs and the pre-deletion
result is returned.  Returns the result together with the post-state of
the path. -/
def clean_directory (p : Option FsEntry) (dry_run : Bool) (ok : String → Bool) :
    CleanupResult × Option FsEntry :=
  match p with
  | none => (CleanupResult.new, none)
  | some (.file n s) =>
      -- exists, `scan_directory` gives the zero result (read_dir fails),
      -- and the later read_dir of the deletion loop fails as well
      (scan_directory (some (.file n s)), some (.file n s))
  | some (.dir n children) =>
      let r := scan_directory (some (.dir n children))
      if dry_run then (r, some (.dir n children))
      else (r, some (.dir n (cleanDirList ok children)))

/-- The deletion pass of `CleanupItem::clean_temp_files`
(`cleanup_items.rs:235-257`): a regular file is removed when its name
passes `is_temp` and its own deletion attempt succeeds; a subdirectory
is never removed but is recursively cleaned (`clean_temp_files(entry,
false)` with the result discarded); non-matching files stay. -/
def cleanTempList (ok : String → Bool) : List FsEntry → List FsEntry
  | [] => []
  | .file n s :: rest =>
      if is_temp n && ok n then cleanTempList ok rest
      else .file n s :: cleanTempList ok rest
  | .dir n cs :: rest =>
      .dir n (cleanTempList ok cs) :: cleanTempList ok rest

/-- Model of `CleanupItem::clean_temp_files(path, dry_run)`
(`cleanup_items.rs:215-260`): a missing path returns the zero result; an
existing path is first re-scanned with `scan_temp_files` and the scan
fields are copied; on a dry run the function returns before deleting;
otherwise the recursive deletion pass runs and the pre-deletion result
is returned, together with the post-state of the path. -/
def clean_temp_files (p : Option FsEntry) (dry_run : Bool) (ok : String → Bool) :
    CleanupResult × Option FsEntry :=
  match p with
  | none => (CleanupResult.new, none)
  | some (.file n s) => (scan_temp_files (some (.file n s)), some (.file n s))
  | some (.dir n children) =>
      let r := scan_temp_files (some (.dir n children))
      if dry_run then (r, some (.dir n children))
      else (r, some (.dir n (cleanTempList ok children)))

/-! ## Cleanup items -/

/-- Model of `CleanupType` (`cleanup_items.rs:17-24`), with each path argument
embedded as the `Option FsEntry` it resolves to. -/
inductive CleanupType where
  | Directory (p : Option FsEntry)
  | Directories (ps : List (Option FsEntry))
  | TempFiles (p : Option FsEntry)

/-- Model of `CleanupItem` (`cleanup_items.rs:7-13`). -/
structure CleanupItem where
  id : String
  name : String
  description : String
  cleanup_type : CleanupType
  enabled : Bool

/-- Model of `CleanupItem::scan()` (`cleanup_items.rs:64-80`): dispatch on the
cleanup type; the `Directories` variant folds the per-path results into
an accumulator starting from `CleanupResult::new()`. -/
def CleanupItem.scan (item : CleanupItem) : CleanupResult :=
  match item.cleanup_type with
  | .Directory p => scan_directory p
  | .Directories ps => ps.foldl (fun acc p => addResult acc (scan_directory p)) CleanupResult.new
  | .TempFiles p => scan_temp_files p

/-- Model of `CleanupItem::clean()` (`cleanup_items.rs:83-99`): dispatch on the
cleanup type with `dry_run = false`; only the reported
`CleanupResult` is returned to the caller (the filesystem mutation is an
external effect). -/
def CleanupItem.clean (ok : String → Bool) (item : CleanupItem) : CleanupResult :=
  match item.cleanup_type with
  | .Directory p => (clean_directory p false ok).1
  | .Directories ps =>
      ps.foldl (fun acc p => addResult acc (clean_directory p false ok).1) CleanupResult.new
  | .TempFiles p => (clean_temp_files p false ok).1

/-! ## The standalone cleaner (`cleaner.rs`) -/

mutual

/-- Model of `get_dir_size(path)` applied to one node (`cleaner.rs:7-31`): a
directory sums `get_dir_size` over subdirectory entries (`unwrap_or(0)`)
and metadata lengths over file entries; a file yields its own metadata
length.  In the failure-free read model the `Result` is always `Ok`. -/
def getDirSizeEntry : FsEntry → Nat
  | .file _ size => size
  | .dir _ children => getDirSizeList children

/-- The `for entry in entries` loop of `get_dir_size`. -/
def getDirSizeList : List FsEntry → Nat
  | [] => 0
  | e :: rest => getDirSizeEntry e + getDirSizeList rest

end

/-- Model of `get_dir_size(path)` (`cleaner.rs:7-31`): `Ok(0)` when the path is
neither a directory nor a file (in particular when it does not exist),
otherwise the recursive size.  The `Except` mirrors the Rust
`Result<u64>` signature; in the failure-free read model no error path is
reachable. -/
def get_dir_size : Option FsEntry → Except String Nat
  | none => .ok 0
  | some e => .ok (getDirSizeEntry e)

/-- Model of `CleanResult` (`cleaner.rs:108-113`). -/
structure CleanResult where
  files_deleted : Nat
  dirs_deleted : Nat
  bytes_cleaned : Nat
  errors : List String
deriving Repr, DecidableEq

/-- The entry loop of `cleaner::clean_directory` (`cleaner.rs:56-95`):
returns the `(files_deleted, dirs_deleted, errors)` triple together with
the surviving children.  On a dry run every entry is counted as deleted
and nothing is removed; on a real run an entry is counted only when its
deletion attempt succeeds, and a failed attempt pushes an error message
and continues. -/
def cleanerLoop (dry_run : Bool) (ok : String → Bool) :
    List FsEntry → Nat × Nat × List String × List FsEntry
  | [] => (0, 0, [], [])
  | e :: rest =>
      let (f, d, errs, surv) := cleanerLoop dry_run ok rest
      match e with
      | .file n s =>
          if dry_run then (f + 1, d, errs, .file n s :: surv)
          else if ok n then (f + 1, d, errs, surv)
          else (f, d, n :: errs, .file n s :: surv)
      | .dir n cs =>
          if dry_run then (f, d + 1, errs, .dir n cs :: surv)
          else if ok n then (f, d + 1, errs, surv)
          else (f, d, n :: errs, .dir n cs :: surv)

/-- Model of `cleaner::clean_directory(path, dry_run)` (`cleaner.rs:34-104`): a
missing path returns the all-zero result; a file path fails at
`fs::read_dir(path)?`; a directory records `before = get_dir_size`,
runs the entry loop, records `after = get_dir_size` of the survivors and
reports `bytes_cleaned = before.saturating_sub(after)`.  Returns the
result together with the post-state. -/
def cleaner_clean_directory (p : Option FsEntry) (dry_run : Bool) (ok : String → Bool) :
    Except String (CleanResult × Option FsEntry) :=
  match p with
  | none =>
      .ok ({ files_deleted := 0, dirs_deleted := 0, bytes_cleaned := 0, errors := [] }, none)
  | some (.file _ _) => .error "read_dir failed: not a directory"
  | some (.dir n children) =>
      let before := getDirSizeList children
      let (f, d, errs, surv) := cleanerLoop dry_run ok children
      let after := getDirSizeList surv
      .ok ({ files_deleted := f, dirs_deleted := d,
             bytes_cleaned := before - after, errors := errs },
           some (.dir n surv))

/-! ## TUI session state machine (`tui.rs`)

The `App` struct is modelled without its presentation-only
`status_message` field; `last_key_event_time` is carried separately by
the debouncer model below.  Time is measured in milliseconds as a
natural number (`Instant::duration_since` saturates at zero). -/

/-- Model of `AppState` (`tui.rs:36-42`). -/
inductive AppState where
  | Initial
  | Scanning
  | ScanningDone
  | Cleaning
  | CleaningDone
deriving Repr, DecidableEq

/-- The session state of `App` (`tui.rs:19-30`), restricted to the
fields the state machine reads and writes. -/
structure App where
  cleanup_items : List CleanupItem
  scan_results : List (Option CleanupResult)
  clean_results : List (Option CleanupResult)
  selected_index : Nat
  state : AppState
  is_scanning : Bool
  is_cleaning : Bool

/-- Model of `App::new()` (`tui.rs:45-61`), parameterised by the catalog the
platform-dependent `get_all_cleanup_items()` returns. -/
def App.new (catalog : List CleanupItem) : App :=
  { cleanup_items := catalog
    scan_results := catalog.map (fun _ => none)
    clean_results := catalog.map (fun _ => none)
    selected_index := 0
    state := .Initial
    is_scanning := false
    is_cleaning := false }

/-- Model of `App::clean_selected()` (`tui.rs:148-169`): for each enabled item,
in catalog order, run `clean()` and store the result in the parallel
slot; disabled items keep their old slot; the phase ends at
`CleaningDone` with `is_cleaning` reset. -/
def App.clean_selected (ok : String → Bool) (app : App) : App :=
  { app with
    state := .CleaningDone
    is_cleaning := false
    clean_results :=
      (app.cleanup_items.zip app.clean_results).map
        (fun pair => if pair.1.enabled then some (pair.1.clean ok) else pair.2) }

/-- Model of `App::scan_all()` (`tui.rs:129-146`): for each enabled item, in
catalog order, run `scan()` and store the result in the parallel slot;
the phase ends at `ScanningDone` with `is_scanning` reset. -/
def App.scan_all (app : App) : App :=
  { app with
    state := .ScanningDone
    is_scanning := false
    scan_results :=
      (app.cleanup_items.zip app.scan_results).map
        (fun pair => if pair.1.enabled then some pair.1.scan else pair.2) }

/-- The handler of the `'c'`/`'C'` key in `run_app`
(`tui.rs:283-293`): only when `app.state == AppState::ScanningDone` does
it run `clean_selected` and then replace the whole app by a fresh
`App::new()`; in every other phase the key leaves the app untouched. -/
def handle_clean_key (catalog : List CleanupItem) (ok : String → Bool) (app : App) : App :=
  if app.state = AppState.ScanningDone then
    let _cleaned := app.clean_selected ok
    App.new catalog
  else app

/-! ## Input debouncer (`App::should_process_key`, `tui.rs:65-81`) -/

/-- Constant `KEY_COOLDOWN_MS` (`tui.rs:33`). -/
def KEY_COOLDOWN_MS : Nat := 150

/-- Model of `App::should_process_key(&mut self)` (`tui.rs:65-81`), with the
`last_key_event_time` field passed and returned explicitly and the
current instant `now` in milliseconds: a first call records `now` and
accepts; a later call accepts iff at least `KEY_COOLDOWN_MS` ms have
elapsed since the last accepted call, updating the timestamp exactly on
acceptance. -/
def should_process_key (last : Option Nat) (now : Nat) : Bool × Option Nat :=
  match last with
  | some t =>
      if KEY_COOLDOWN_MS ≤ now - t then (true, some now)
      else (false, some t)
  | none => (true, some now)

end CleanRs

namespace CleanRs

/-! ## Helper lemmas -/

mutual

theorem scanDirEntry_spec (e : FsEntry) :
    (scanDirEntry e).size_bytes = reachBytes e ∧ (scanDirEntry e).files = reachFiles e ∧
    (scanDirEntry e).directories = reachDirs e ∧ (scanDirEntry e).entries = 0 := by
  match e with
  | .file n s =>
      simp [scanDirEntry, reachBytes, reachFiles, reachDirs]
  | .dir n cs =>
      have h := scanDirList_spec cs
      simp [scanDirEntry, reachBytes, reachFiles, reachDirs, h.1, h.2.1, h.2.2.1]

theorem scanDirList_spec (cs : List FsEntry) :
    (scanDirList cs).size_bytes = reachBytesList cs ∧ (scanDirList cs).files = reachFilesList cs ∧
    (scanDirList cs).directories = reachDirsList cs ∧ (scanDirList cs).entries = 0 := by
  match cs with
  | [] =>
      simp [scanDirList, reachBytesList, reachFilesList, reachDirsList, CleanupResult.new]
  | e :: rest =>
      have h1 := scanDirEntry_spec e
      have h2 := scanDirList_spec rest
      simp [scanDirList, reachBytesList, reachFilesList, reachDirsList, addResult,
        h1.1, h1.2.1, h1.2.2.1, h1.2.2.2, h2.1, h2.2.1, h2.2.2.1, h2.2.2.2]

end

mutual

theorem getDirSizeEntry_spec (e : FsEntry) : getDirSizeEntry e = reachBytes e := by
  match e with
  | .file n s => simp [getDirSizeEntry, reachBytes]
  | .dir n cs => simp [getDirSizeEntry, reachBytes, getDirSizeList_spec cs]

theorem getDirSizeList_spec (cs : List FsEntry) : getDirSizeList cs = reachBytesList cs := by
  match cs with
  | [] => simp [getDirSizeList, reachBytesList]
  | e :: rest =>
      simp [getDirSizeList, reachBytesList, getDirSizeEntry_spec e, getDirSizeList_spec rest]

end

mutual

theorem scanDirEntry_hasData (e : FsEntry) :
    (scanDirEntry e).has_data = true ↔ 0 < (scanDirEntry e).files := by
  match e with
  | .file n s => simp [scanDirEntry]
  | .dir n cs =>
      have h := scanDirList_hasData cs
      simpa [scanDirEntry] using h

theorem scanDirList_hasData (cs : List FsEntry) :
    (scanDirList cs).has_data = true ↔ 0 < (scanDirList cs).files := by
  match cs with
  | [] => simp [scanDirList, CleanupResult.new]
  | e :: rest =>
      have h1 := scanDirEntry_hasData e
      have h2 := scanDirList_hasData rest
      simp only [scanDirList, addResult, Bool.or_eq_true]
      rw [h1, h2]
      omega

end

mutual

theorem scanTempEntry_spec (e : FsEntry) :
    (scanTempEntry e).files = reachTempFiles e ∧
    (scanTempEntry e).size_bytes = reachTempBytes e ∧
    (scanTempEntry e).directories = 0 ∧ (scanTempEntry e).entries = 0 := by
  match e with
  | .file n s =>
      by_cases h : is_temp n = true <;>
        simp [scanTempEntry, reachTempFiles, reachTempBytes, h, CleanupResult.new]
  | .dir n cs =>
      have h := scanTempList_spec cs
      simp [scanTempEntry, reachTempFiles, reachTempBytes, h.1, h.2.1, h.2.2.1]

theorem scanTempList_spec (cs : List FsEntry) :
    (scanTempList cs).files = reachTempFilesList cs ∧
    (scanTempList cs).size_bytes = reachTempBytesList cs ∧
    (scanTempList cs).directories = 0 ∧ (scanTempList cs).entries = 0 := by
  match cs with
  | [] =>
      simp [scanTempList, reachTempFilesList, reachTempBytesList, CleanupResult.new]
  | e :: rest =>
      have h1 := scanTempEntry_spec e
      have h2 := scanTempList_spec rest
      simp [scanTempList, reachTempFilesList, reachTempBytesList, addResult,
        h1.1, h1.2.1, h1.2.2.1, h1.2.2.2, h2.1, h2.2.1, h2.2.2.1, h2.2.2.2]

end

mutual

theorem scanTempEntry_hasData (e : FsEntry) :
    (scanTempEntry e).has_data = true ↔ 0 < (scanTempEntry e).files := by
  match e with
  | .file n s =>
      by_cases h : is_temp n = true <;> simp [scanTempEntry, h, CleanupResult.new]
  | .dir n cs =>
      have h := scanTempList_hasData cs
      simpa [scanTempEntry] using h

theorem scanTempList_hasData (cs : List FsEntry) :
    (scanTempList cs).has_data = true ↔ 0 < (scanTempList cs).files := by
  match cs with
  | [] => simp [scanTempList, CleanupResult.new]
  | e :: rest =>
      have h1 := scanTempEntry_hasData e
      have h2 := scanTempList_hasData rest
      simp only [scanTempList, addResult, Bool.or_eq_true]
      rw [h1, h2]
      omega

end

theorem clean_directory_fst (p : Option FsEntry) (d : Bool) (ok : String → Bool) :
    (clean_directory p d ok).1 = scan_directory p := by
  match p with
  | none => rfl
  | some (.file n s) => rfl
  | some (.dir n cs) => cases d <;> simp [clean_directory]

theorem clean_temp_files_fst (p : Option FsEntry) (d : Bool) (ok : String → Bool) :
    (clean_temp_files p d ok).1 = scan_temp_files p := by
  match p with
  | none => rfl
  | some (.file n s) => rfl
  | some (.dir n cs) => cases d <;> simp [clean_temp_files]

/-! ## Claim theorems -/

/-- C1: for every directory tree, `CleanupItem::scan_directory` returns
`size_bytes` equal to the sum of the sizes of all regular files
reachable from the tree, `files` equal to the number of those files, and
`directories` in which each subdirectory contributes one plus its own
directory count, at any nesting depth; `get_dir_size` returns the same
byte total. -/
theorem C1_aggregation_correct :
    (∀ (n : String) (cs : List FsEntry),
      (scan_directory (some (.dir n cs))).size_bytes = reachBytesList cs ∧
      (scan_directory (some (.dir n cs))).files = reachFilesList cs ∧
      (scan_directory (some (.dir n cs))).directories = reachDirsList cs)
    ∧ (∀ e : FsEntry, get_dir_size (some e) = Except.ok (reachBytes e)) := by
  constructor
  · intro n cs
    have h := scanDirList_spec cs
    exact ⟨h.1, h.2.1, h.2.2.1⟩
  · intro e
    simp [get_dir_size, getDirSizeEntry_spec e]

/-- C2 counterexample: a directory containing a single empty
subdirectory scans to `files = 0`, `directories = 1`, yet
`has_data = false`, refuting the claimed equivalence
`has_data = true ↔ 0 < files + directories`. -/
theorem C2_counterexample :
    ¬ ((scan_directory (some (.dir "t" [.dir "sub" []]))).has_data = true ↔
       0 < (scan_directory (some (.dir "t" [.dir "sub" []]))).files +
           (scan_directory (some (.dir "t" [.dir "sub" []]))).directories) := by
  decide

/-- C2 amended: for every scanned path, `has_data` is true if and only
if the counted `files` is positive (for temp-file targets: iff the
number of matched temp files is positive); directories alone never set
`has_data`. -/
theorem C2_amended_has_data_iff_files :
    (∀ p : Option FsEntry, (scan_directory p).has_data = true ↔ 0 < (scan_directory p).files)
    ∧ (∀ p : Option FsEntry,
        (scan_temp_files p).has_data = true ↔ 0 < (scan_temp_files p).files) := by
  constructor
  · intro p
    match p with
    | none => simp [scan_directory, CleanupResult.new]
    | some (.file n s) => simp [scan_directory, CleanupResult.new]
    | some (.dir n cs) => exact scanDirList_hasData cs
  · intro p
    match p with
    | none => simp [scan_temp_files, CleanupResult.new]
    | some (.file n s) => simp [scan_temp_files, CleanupResult.new]
    | some (.dir n cs) => exact scanTempList_hasData cs

/-- C3 counterexample: the file name `"xtmpy"` contains the substring
`"tmp"`, yet a temp-file scan of a directory holding only that file
counts zero files — the code requires `".tmp"` with the dot (or
`"temp"`, `"cache"`, or a `~` affix). -/
theorem C3_counterexample :
    strContains "xtmpy" "tmp" = true ∧
    (scan_temp_files (some (.dir "t" [.file "xtmpy" 5]))).files = 0 := by
  exact ⟨rfl, rfl⟩

/-- C3 amended: a regular file is counted by the temp-file scan if and
only if its name passes `is_temp` — contains `".tmp"` or `".temp"`,
starts or ends with `"~"`, or contains `"temp"` or `"cache"` (a bare
`"tmp"` substring does not match); subdirectories are always recursed
into regardless of their own name and only matching files inside them
are counted: the counted files and bytes equal the recursive totals over
exactly the `is_temp`-matching reachable files.  The scenario from the spec
(`a.tmp`, `notes.txt`, `~backup`, `cache.db` → 3 files) holds. -/
theorem C3_amended_temp_predicate :
    (∀ (n : String) (cs : List FsEntry),
      (scan_temp_files (some (.dir n cs))).files = reachTempFilesList cs ∧
      (scan_temp_files (some (.dir n cs))).size_bytes = reachTempBytesList cs)
    ∧ (∀ (name : String) (s : Nat), reachTempFiles (.file name s) = if is_temp name then 1 else 0)
    ∧ (scan_temp_files (some (.dir "t"
        [.file "a.tmp" 1, .file "notes.txt" 2, .file "~backup" 4, .file "cache.db" 8]))).files
        = 3 := by
  refine ⟨fun n cs => ?_, fun name s => rfl, rfl⟩
  have h := scanTempList_spec cs
  exact ⟨h.1, h.2.1⟩

/-- C4: for every cleanup item and every pattern of deletion successes
and failures, `CleanupItem::clean()` returns exactly the pre-deletion
`scan()` result. -/
theorem C4_clean_reports_prescan :
    ∀ (item : CleanupItem) (ok : String → Bool), item.clean ok = item.scan := by
  intro item ok
  match h : item.cleanup_type with
  | .Directory p =>
      simp [CleanupItem.clean, CleanupItem.scan, h, clean_directory_fst]
  | .Directories ps =>
      simp [CleanupItem.clean, CleanupItem.scan, h, clean_directory_fst]
  | .TempFiles p =>
      simp [CleanupItem.clean, CleanupItem.scan, h, clean_temp_files_fst]

/-- C5: deletion failures during a clean are swallowed: the reported
result is identical under any two oracles of per-entry deletion
outcomes (so no error is ever surfaced through the return value), the
directory deletion loop removes exactly the entries whose own attempt
succeeds — failure on one entry never prevents the attempts on the
remaining entries — and a matching temp file whose own deletion succeeds
is removed no matter which other deletions fail. -/
theorem C5_deletion_failures_swallowed :
    (∀ (ok : String → Bool) (cs : List FsEntry),
      cleanDirList ok cs = cs.filter (fun e => ! ok e.name))
    ∧ (∀ (p : Option FsEntry) (d : Bool) (ok1 ok2 : String → Bool),
        (clean_directory p d ok1).1 = (clean_directory p d ok2).1)
    ∧ (∀ (p : Option FsEntry) (d : Bool) (ok1 ok2 : String → Bool),
        (clean_temp_files p d ok1).1 = (clean_temp_files p d ok2).1)
    ∧ (∀ (ok : String → Bool) (cs : List FsEntry) (n : String) (s : Nat),
        is_temp n = true → ok n = true → FsEntry.file n s ∉ cleanTempList ok cs) := by
  refine ⟨fun ok cs => ?_, fun p d ok1 ok2 => ?_, fun p d ok1 ok2 => ?_,
    fun ok cs n s htemp hok => ?_⟩
  · induction cs with
    | nil => rfl
    | cons e rest ih => by_cases h : ok e.name <;> simp [cleanDirList, h, ih]
  · rw [clean_directory_fst, clean_directory_fst]
  · rw [clean_temp_files_fst, clean_temp_files_fst]
  · induction cs with
    | nil => simp [cleanTempList]
    | cons e rest ih =>
        cases e with
        | file m t =>
            simp only [cleanTempList]
            by_cases h : (is_temp m && ok m) = true
            · simpa [h] using ih
            · rw [if_neg h]
              simp only [List.mem_cons, not_or]
              refine ⟨fun heq => ?_, ih⟩
              injection heq with hm hs
              subst hm
              simp [htemp, hok] at h
        | dir m cs2 =>
            simp only [cleanTempList, List.mem_cons, not_or]
            exact ⟨fun heq => FsEntry.noConfusion heq, ih⟩

/-- C5 witness: with an all-success oracle, the matching temp file
`a.tmp` is removed from a batch in which it is the only entry. -/
theorem C5_witness :
    FsEntry.file "a.tmp" 3 ∉ cleanTempList (fun _ => true) [FsEntry.file "a.tmp" 3] :=
  C5_deletion_failures_swallowed.2.2.2 (fun _ => true) [FsEntry.file "a.tmp" 3] "a.tmp" 3 rfl rfl

/-- C6: a path that does not exist on disk yields the all-zero result
(zero bytes, files, directories, `has_data = false`) from every scan,
clean and aggregation operation, and never an error. -/
theorem C6_missing_path_all_zero :
    scan_directory none = CleanupResult.new ∧
    scan_temp_files none = CleanupResult.new ∧
    (∀ (d : Bool) (ok : String → Bool), clean_directory none d ok = (CleanupResult.new, none)) ∧
    (∀ (d : Bool) (ok : String → Bool), clean_temp_files none d ok = (CleanupResult.new, none)) ∧
    get_dir_size none = Except.ok 0 ∧
    CleanupResult.new =
      { files := 0, directories := 0, size_bytes := 0, entries := 0, has_data := false } :=
  ⟨rfl, rfl, fun _ _ => rfl, fun _ _ => rfl, rfl, rfl⟩

/-- C7: invoking the clean command in any session phase other than
`ScanningDone` is a no-op: the whole app state, `clean_results`
included, is left unchanged. -/
theorem C7_clean_noop_outside_scanned :
    ∀ (catalog : List CleanupItem) (ok : String → Bool) (app : App),
      app.state ≠ AppState.ScanningDone → handle_clean_key catalog ok app = app := by
  intro catalog ok app h
  simp [handle_clean_key, h]

/-- C7 witness: a fresh app (phase `Initial`) is untouched by the clean
command. -/
theorem C7_witness :
    handle_clean_key [] (fun _ => true) (App.new []) = App.new [] :=
  C7_clean_noop_outside_scanned [] (fun _ => true) (App.new []) (by decide)

/-- C8: evaluation of `cleaner::clean_directory` at the failing input —
a directory with `file1.txt` (13 B), `file2.txt` (1024 B) and
`subdir/file3.txt` (2048 B), every deletion succeeding.  A dry run
counts the entries but reports `bytes_cleaned = 0` (nothing was removed,
so `before - after = 0`), while a real clean reports
`bytes_cleaned = 3085`: the dry run does not report the same result a
real clean would report, contradicting the claim and the test suite of the
repository in `test_clean_directory_dry_run`, which asserts 3085. -/
theorem C8_dry_run_bytes_bug :
    cleaner_clean_directory
        (some (.dir "t" [.file "file1.txt" 13, .file "file2.txt" 1024,
          .dir "subdir" [.file "file3.txt" 2048]])) true (fun _ => true) =
      Except.ok
        ({ files_deleted := 2, dirs_deleted := 1, bytes_cleaned := 0, errors := [] },
         some (.dir "t" [.file "file1.txt" 13, .file "file2.txt" 1024,
           .dir "subdir" [.file "file3.txt" 2048]])) ∧
    cleaner_clean_directory
        (some (.dir "t" [.file "file1.txt" 13, .file "file2.txt" 1024,
          .dir "subdir" [.file "file3.txt" 2048]])) false (fun _ => true) =
      Except.ok
        ({ files_deleted := 2, dirs_deleted := 1, bytes_cleaned := 3085, errors := [] },
         some (.dir "t" [])) :=
  ⟨rfl, rfl⟩

/-- C9: the input debouncer accepts the first call and records its
instant; a later call is accepted iff at least `KEY_COOLDOWN_MS`
(150 ms) elapsed since the last accepted call, and the recorded instant
is updated exactly on acceptance; two calls 50 ms apart yield
`(true, false)` and a further call 200 ms later yields `true`. -/
theorem C9_debouncer_cooldown :
    (∀ now : Nat, should_process_key none now = (true, some now))
    ∧ (∀ t now : Nat,
        (should_process_key (some t) now).1 = true ↔ KEY_COOLDOWN_MS ≤ now - t)
    ∧ (∀ t now : Nat, (should_process_key (some t) now).1 = true →
        (should_process_key (some t) now).2 = some now)
    ∧ (∀ t now : Nat, (should_process_key (some t) now).1 = false →
        (should_process_key (some t) now).2 = some t)
    ∧ ((should_process_key none 0).1 = true ∧
       (should_process_key (should_process_key none 0).2 50).1 = false ∧
       (should_process_key (should_process_key (should_process_key none 0).2 50).2 250).1
         = true) := by
  refine ⟨fun now => rfl, fun t now => ?_, fun t now h => ?_, fun t now h => ?_,
    by decide, by decide, by decide⟩
  · by_cases hc : KEY_COOLDOWN_MS ≤ now - t <;> simp [should_process_key, hc]
  · by_cases hc : KEY_COOLDOWN_MS ≤ now - t <;>
      simp [should_process_key, hc] at h ⊢
  · by_cases hc : KEY_COOLDOWN_MS ≤ now - t <;>
      simp [should_process_key, hc] at h ⊢

/-- C9 witness: a call 200 ms after an accepted call at 0 is accepted
and updates the timestamp; a call 50 ms after is rejected and leaves the
timestamp. -/
theorem C9_witness :
    (should_process_key (some 0) 200).2 = some 200 ∧
    (should_process_key (some 0) 50).2 = some 0 :=
  ⟨C9_debouncer_cooldown.2.2.1 0 200 (by decide),
   C9_debouncer_cooldown.2.2.2.1 0 50 (by decide)⟩

/-- C10: a temp-file pattern scan or clean always reports
`directories = 0` (and `entries = 0`) no matter how many subdirectories
lie under the path, so its `total_items` equals its matched file count
alone. -/
theorem C10_temp_scan_zero_directories :
    (∀ p : Option FsEntry,
      (scan_temp_files p).directories = 0 ∧ (scan_temp_files p).entries = 0 ∧
      (scan_temp_files p).total_items = (scan_temp_files p).files)
    ∧ (∀ (p : Option FsEntry) (d : Bool) (ok : String → Bool),
      ((clean_temp_files p d ok).1).directories = 0 ∧
      ((clean_temp_files p d ok).1).total_items = ((clean_temp_files p d ok).1).files) := by
  have key : ∀ p : Option FsEntry,
      (scan_temp_files p).directories = 0 ∧ (scan_temp_files p).entries = 0 := by
    intro p
    match p with
    | none => exact ⟨rfl, rfl⟩
    | some (.file n s) => exact ⟨rfl, rfl⟩
    | some (.dir n cs) =>
        have h := scanTempList_spec cs
        exact ⟨h.2.2.1, h.2.2.2⟩
  constructor
  · intro p
    obtain ⟨h1, h2⟩ := key p
    exact ⟨h1, h2, by simp [CleanupResult.total_items, h1, h2]⟩
  · intro p d ok
    rw [clean_temp_files_fst]
    obtain ⟨h1, h2⟩ := key p
    exact ⟨h1, by simp [CleanupResult.total_items, h1, h2]⟩

end CleanRs
